import Mathlib

/-!
Verification of the XPlan retrieval engine (`src/tools.ts`) and tool-dispatch
loop (`src/codeAgent.ts`) against its specification.

Shallow embedding conventions:
* A JavaScript string is modelled as its sequence of UTF-16 code units,
  `List Nat` (`charCodeAt` is exactly list indexing in this model).
* JavaScript numbers produced by the floating-point pipeline (embeddings,
  cosine similarity) are idealised as real numbers; a division whose
  denominator is `0` produces `NaN`/`±Infinity` in JavaScript, i.e. never a
  finite number, which the model renders as `none : Option ℝ`.
* Filesystem enumeration (the `glob` library) and the fuzzy matcher
  (the `Fuse.js` library) are third-party collaborators, not repository code;
  operations consuming them take the enumerated file list, resp. the fuzzy
  ranking function, as an explicit argument.
-/

set_option maxRecDepth 100000

namespace XPlan

/-- A JavaScript string: its sequence of UTF-16 code units. -/
abbrev JSString := List Nat

/-- Code unit of `'\n'`. -/
def newlineCU : Nat := 10

/-- `str.split(sep)` for a single-code-unit separator `sep` (as used with
`'\n'` and `':'` in `tools.ts`).  JavaScript's `split` on an empty string
yields `[""]`, and a trailing separator yields a trailing empty piece. -/
def splitOnChar (sep : Nat) : JSString → List JSString
  | [] => [[]]
  | c :: rest =>
    match splitOnChar sep rest with
    | [] => [[]]
    | l :: ls => if c = sep then [] :: l :: ls else (c :: l) :: ls

/-- `content.split('\n')` from `splitCodeIntoChunks` and the vector-path
snippet extraction. -/
def splitLines (s : JSString) : List JSString := splitOnChar newlineCU s

/-- `lines.join('\n')` from `splitCodeIntoChunks`. -/
def joinLines : List JSString → JSString
  | [] => []
  | [l] => l
  | l :: l' :: ls => l ++ newlineCU :: joinLines (l' :: ls)

/-- `CodeChunk` from `tools.ts` (the optional `embedding` field is never
written or read anywhere in the program and is omitted). -/
structure CodeChunk where
  filePath : JSString
  startLine : Nat
  endLine : Nat
  content : JSString
deriving DecidableEq, Repr

/-- The chunking loop of `splitCodeIntoChunks`:
`for (let i = 0; i < lines.length; i += maxChunkSize - overlap)` with
`maxChunkSize = 1000`, `overlap = 50`; each iteration emits a chunk of
`lines.slice(i, min(i + 1000, lines.length))` with 1-based line numbers. -/
def chunksFrom (filePath : JSString) (lines : List JSString) (i : Nat) : List CodeChunk :=
  if i < lines.length then
    let endLine := min (i + 1000) lines.length
    { filePath := filePath, startLine := i + 1, endLine := endLine,
      content := joinLines ((lines.drop i).take (endLine - i)) } ::
      chunksFrom filePath lines (i + 950)
  else []
termination_by lines.length - i
decreasing_by omega

/-- `splitCodeIntoChunks` from `tools.ts`. -/
def splitCodeIntoChunks (filePath : JSString) (content : JSString) : List CodeChunk :=
  chunksFrom filePath (splitLines content) 0

/-! ## Vectorizer (`createSimpleEmbedding`, `simpleHash`) -/

/-- The code units matched by JavaScript's `\s` character class. -/
def jsWhitespace (c : Nat) : Bool :=
  decide (c = 9 ∨ c = 10 ∨ c = 11 ∨ c = 12 ∨ c = 13 ∨ c = 32 ∨ c = 160 ∨
    c = 0x1680 ∨ (0x2000 ≤ c ∧ c ≤ 0x200A) ∨ c = 0x2028 ∨ c = 0x2029 ∨
    c = 0x202F ∨ c = 0x205F ∨ c = 0x3000 ∨ c = 0xFEFF)

/-- `text.toLowerCase()` on a code unit.  Only the ASCII range is mapped here;
non-ASCII case mappings never turn a letter into whitespace, so they are
irrelevant to every property proved below. -/
def toLowerCU (c : Nat) : Nat := if 65 ≤ c ∧ c ≤ 90 then c + 32 else c

def toLowerJS (s : JSString) : JSString := s.map toLowerCU

/-- `text.split(/\s+/)`: splits on maximal runs of whitespace.  As in
JavaScript, the empty string yields `[""]`, and leading/trailing whitespace
yields a leading/trailing empty token. -/
def splitWs : JSString → List JSString
  | [] => [[]]
  | c :: rest =>
    let r := splitWs rest
    if jsWhitespace c then
      match rest with
      | [] => [] :: r
      | d :: _ => if jsWhitespace d then r else [] :: r
    else
      match r with
      | [] => [[c]]
      | l :: ls => (c :: l) :: ls

/-- Truncation of an integer to a 32-bit two's-complement value
(JavaScript's `| 0` / bitwise coercion, used by `hash = hash & hash` and
implicitly by `hash << 5`). -/
def toInt32 (x : Int) : Int := (x + 2 ^ 31) % 2 ^ 32 - 2 ^ 31

/-- One iteration of `simpleHash`:
`hash = ((hash << 5) - hash) + char; hash = hash & hash`. -/
def simpleHashStep (hash : Int) (char : Nat) : Int :=
  toInt32 (toInt32 (hash * 32) - hash + char)

/-- `simpleHash` from `tools.ts`; the final `Math.abs` makes the result a
natural number. -/
def simpleHash (str : JSString) : Nat :=
  (str.foldl simpleHashStep 0).natAbs

/-- `embedding[index] += 1` on the accumulator array (the accumulator only
ever holds the non-negative integer counts, carried here as `Nat`). -/
def bump (l : List Nat) (i : Nat) : List Nat := l.set i (l.getD i 0 + 1)

/-- The accumulation loop of `createSimpleEmbedding`: a 1536-slot array of
zeros, bumped at `simpleHash(word) % 1536` for each token. -/
def hashAccum (words : List JSString) : List Nat :=
  words.foldl (fun acc w => bump acc (simpleHash w % 1536)) (List.replicate 1536 0)

/-- `embedding.reduce((sum, val) => sum + val * val, 0)`. -/
def sumsq (l : List ℝ) : ℝ := l.foldl (fun s v => s + v * v) 0

/-- `createSimpleEmbedding` from `tools.ts`: lowercase, split on whitespace,
hash-bucket counting, then L2 normalisation guarded by `norm > 0`. -/
noncomputable def createSimpleEmbedding (text : JSString) : List ℝ :=
  let words := splitWs (toLowerJS text)
  let acc := (hashAccum words).map (Nat.cast : ℕ → ℝ)
  let norm := Real.sqrt (sumsq acc)
  acc.map (fun val => if norm > 0 then val / norm else 0)

/-! ## Cosine similarity (`cosineSimilarity`) -/

/-- JavaScript division on ideal reals: dividing by zero produces `NaN`
(or `±Infinity`), never a finite number; the non-finite outcome is `none`. -/
noncomputable def jsDiv (x y : ℝ) : Option ℝ := if y = 0 then none else some (x / y)

/-- The accumulation loop of `cosineSimilarity`; it only runs when the two
lengths are equal, so pairing the vectors loses nothing. -/
def dotProduct (a b : List ℝ) : ℝ := (a.zip b).foldl (fun s p => s + p.1 * p.2) 0

/-- `cosineSimilarity` from `tools.ts`: `0` on length mismatch, otherwise
`dot / (√normA * √normB)` with no guard against a zero denominator. -/
noncomputable def cosineSimilarity (a b : List ℝ) : Option ℝ :=
  if a.length ≠ b.length then some 0
  else jsDiv (dotProduct a b) (Real.sqrt (sumsq a) * Real.sqrt (sumsq b))

/-! ## Index state and search (`searchCodebase`, `fallbackSearch`, `vectorRank`) -/

/-- Code unit of `':'` (the chunk-key separator `filePath:startLine`). -/
def colonCU : Nat := 58

/-- `SearchResult` from `tools.ts`.  `score` is an optional field; when
present its value is a JavaScript number that may be `NaN` (hence the inner
`Option ℝ`, as in `jsDiv`). -/
structure SearchResult where
  file : JSString
  line : Nat
  content : JSString
  score : Option (Option ℝ)

/-- `str.trim()`: strip whitespace from both ends. -/
def trimJS (s : JSString) : JSString :=
  ((s.dropWhile jsWhitespace).reverse.dropWhile jsWhitespace).reverse

/-- Longest decimal-digit run from the front, accumulating its value. -/
def parseDigitsAux : JSString → Nat → Nat
  | c :: rest, acc =>
    if 48 ≤ c ∧ c ≤ 57 then parseDigitsAux rest (acc * 10 + (c - 48)) else acc
  | [], acc => acc

/-- The digit prefix of a string, `none` when it does not start with a digit. -/
def parseDigitsPre : JSString → Option Nat
  | c :: rest => if 48 ≤ c ∧ c ≤ 57 then some (parseDigitsAux rest (c - 48)) else none
  | [] => none

/-- `parseInt(str)` (radix 10): strip leading whitespace, optional sign, then
the longest digit prefix; `none` models `NaN`. -/
def parseIntJS (s : JSString) : Option Int :=
  match s.dropWhile jsWhitespace with
  | [] => none
  | c :: rest =>
    if c = 45 then (parseDigitsPre rest).map (fun n => -(n : Int))
    else if c = 43 then (parseDigitsPre rest).map (fun n => (n : Int))
    else (parseDigitsPre (c :: rest)).map (fun n => (n : Int))

/-- The mutable retrieval state of `FileSystemTools`: the `codeChunks` array
and the `embeddings` map (a JavaScript `Map` keyed by
`` `${filePath}:${startLine}` ``, iterated in insertion order, so carried as an
association list). -/
structure IndexState where
  codeChunks : List CodeChunk
  embeddings : List (JSString × List ℝ)

/-- The external `Fuse.js` matcher: given the chunk list and a query, returns
the fuzzy matches in rank order, each with its optional score (0 is best). -/
abbrev FuseFn := List CodeChunk → JSString → List (CodeChunk × Option ℝ)

/-- `fallbackSearch` from `tools.ts`.  The score transform
`result.score ? 1 - result.score : undefined` drops falsy scores, so a
perfect fuzzy score of `0` yields an absent score. -/
noncomputable def fallbackSearch (fuse : FuseFn) (s : IndexState) (query : JSString)
    (limit : Nat) : List SearchResult :=
  ((fuse s.codeChunks query).take limit).map (fun r =>
    { file := r.1.filePath, line := r.1.startLine,
      content := trimJS ((splitLines r.1.content).getD 0 []),
      score := match r.2 with
               | some v => if v = 0 then none else some (some (1 - v))
               | none => none })

/-- One insertion step of a stable sort modelling
`similarities.sort((a, b) => b.similarity - a.similarity)`: an element moves
ahead only on strictly greater similarity; a comparator outcome of `NaN`
(either similarity non-finite) is treated as `0`, i.e. "equal", per the
ECMAScript sort specification. -/
noncomputable def insertDescBySim (x : CodeChunk × Option ℝ) :
    List (CodeChunk × Option ℝ) → List (CodeChunk × Option ℝ)
  | [] => [x]
  | y :: ys =>
    match x.2, y.2 with
    | some a, some b => if b < a then x :: y :: ys else y :: insertDescBySim x ys
    | _, _ => y :: insertDescBySim x ys

/-- Stable descending sort by similarity (insertion sort; JavaScript's sort is
likewise stable). -/
noncomputable def sortBySimDesc (l : List (CodeChunk × Option ℝ)) :
    List (CodeChunk × Option ℝ) :=
  l.foldl (fun acc x => insertDescBySim x acc) []

/-- The vector path of `searchCodebase`: for every `(key, embedding)` map
entry compute the cosine similarity, split the key back into
`filePath:startLine` (`parseInt` of a missing piece is `NaN`), resolve the
chunk by `filePath` and `startLine` (`NaN` matches nothing), sort descending,
take `limit`, and report each chunk's file, start line, trimmed first content
line, and the (possibly `NaN`) similarity as score. -/
noncomputable def vectorRank (s : IndexState) (queryEmbedding : List ℝ)
    (limit : Nat) : List SearchResult :=
  let similarities := s.embeddings.filterMap (fun kv =>
    let similarity := cosineSimilarity queryEmbedding kv.2
    let parts := splitOnChar colonCU kv.1
    let filePath := parts.getD 0 []
    let startLine? := (parts[1]?).bind parseIntJS
    match s.codeChunks.find? (fun c =>
        c.filePath == filePath && some ((c.startLine : Int)) == startLine?) with
    | some chunk => some (chunk, similarity)
    | none => none)
  ((sortBySimDesc similarities).take limit).map (fun cs =>
    { file := cs.1.filePath, line := cs.1.startLine,
      content := trimJS ((splitLines cs.1.content).getD 0 []),
      score := some cs.2 })

/-- `searchCodebase` from `tools.ts`.  The body's `try`/`catch` (whose handler
would call `fallbackSearch`) cannot fire in this model: every step of the body
is total. -/
noncomputable def searchCodebase (fuse : FuseFn) (s : IndexState) (query : JSString)
    (limit : Nat) : List SearchResult :=
  if s.codeChunks.length = 0 then []
  else if 0 < s.embeddings.length then
    let queryEmbedding := createSimpleEmbedding query
    if queryEmbedding.length = 0 then fallbackSearch fuse s query limit
    else vectorRank s queryEmbedding limit
  else fallbackSearch fuse s query limit

/-- State-passing rendering of the `searchCodebase` method: the method body
(including the `fallbackSearch` it may call) reads `this.codeChunks` and
`this.embeddings` but contains no assignment to either field, so the state
passed out is the state passed in. -/
noncomputable def searchCodebaseS (fuse : FuseFn) (s : IndexState) (query : JSString)
    (limit : Nat) : List SearchResult × IndexState :=
  (searchCodebase fuse s query limit, s)

/-- A one-line chunk of a file named `"a"` with content `"hi"`. -/
def chunkA : CodeChunk := ⟨[97], 1, 1, [104, 105]⟩

/-- An index holding `chunkA` whose only stored vector (key `"a:1"`) is the
all-zero vector. -/
def zeroVecState : IndexState :=
  ⟨[chunkA], [([97, 58, 49], List.replicate 1536 0)]⟩

/-- A fuzzy matcher that always matches `chunkA` with score `1/2`. -/
noncomputable def fuseConst : FuseFn := fun _ _ => [(chunkA, some (1 / 2 : ℝ))]

/-! ## grep (`tools.ts`) -/

/-- Case-insensitive match of a literal (metacharacter-free) search term at
position `i` of a line — the effect of the regex `i` flag for such terms. -/
def matchesAt (pat line : JSString) (i : Nat) : Bool :=
  ((line.drop i).take pat.length).map toLowerCU == pat.map toLowerCU
    && decide (i + pat.length ≤ line.length)

/-- First match position at or after `start` (a `/g` regex scans from
`lastIndex`). -/
def findFrom (pat line : JSString) (start : Nat) : Option Nat :=
  (List.range (line.length + 1)).find? (fun i => decide (start ≤ i) && matchesAt pat line i)

/-- `regex.test(line)` for a `g`-flagged regex: whether it matched, together
with the updated `lastIndex` (end of the match on success, reset to 0 on
failure). -/
def regexTestG (pat line : JSString) (lastIndex : Nat) : Bool × Nat :=
  match findFrom pat line lastIndex with
  | some i => (true, i + pat.length)
  | none => (false, 0)

/-- One line of the grep scan (`lines.forEach((line, index) => ...)`): on a
match, push `{file, line: index + 1, content: line.trim()}`; the shared
regex's `lastIndex` is threaded through. -/
def grepLine (pat fp : JSString) (st : List SearchResult × Nat) (il : Nat × JSString) :
    List SearchResult × Nat :=
  let r := regexTestG pat il.2 st.2
  if r.1 then
    (st.1 ++ [{ file := fp, line := il.1 + 1, content := trimJS il.2, score := none }], r.2)
  else (st.1, r.2)

/-- The per-file body of `grep`: a file whose read fails (`none`) is skipped
by the `catch`; readable content is split into lines and scanned. -/
def grepFile (pat : JSString) (st : List SearchResult × Nat)
    (f : JSString × Option JSString) : List SearchResult × Nat :=
  match f.2 with
  | none => st
  | some content => (splitLines content).enum.foldl (grepLine pat f.1) st

/-- `grep` from `tools.ts`, for a literal search term.  The `glob` enumeration
and `path.relative` are external: the scan receives the matched files as
`(relativePath, content?)` pairs, `none` marking an unreadable file.  The
single `RegExp` object is created once, outside both loops, with flags `gi`,
so its `lastIndex` persists across lines and across files. -/
def grep (searchTerm : JSString) (files : List (JSString × Option JSString)) :
    List SearchResult :=
  (files.foldl (grepFile searchTerm) ([], 0)).1

/-! ## Tool-dispatch loop (`codeAgent.ts`) -/

/-- One part of a conversation turn: free text, a tool-call request, or a tool
response (`functionResponse` whose payload is `{result}` on success or
`{error}` on a caught failure, tagged with the originating call's name). -/
inductive Part (Args Val : Type) where
  | text (s : String)
  | functionCall (name : String) (args : Args)
  | functionResponse (name : String) (payload : Except String Val)

/-- A conversation turn (`{role, parts}`). -/
structure Content (Args Val : Type) where
  role : String
  parts : List (Part Args Val)

/-- The six `FileSystemTools` operations as `executeToolCall` sees them; their
bodies (filesystem effects, argument defaulting such as
`parameters.rootDir || '.'`) are externals summarised as functions from the
raw argument object to a result or a thrown error message. -/
structure ToolEnv (Args Val : Type) where
  readFile : Args → Except String Val
  listDirectory : Args → Except String Val
  searchFile : Args → Except String Val
  grep : Args → Except String Val
  searchCodebase : Args → Except String Val
  getFileInfo : Args → Except String Val

/-- `executeToolCall` from `codeAgent.ts`: dispatch on the tool name; an
unknown name throws `Unknown tool: ...` (caught by the caller into an error
payload). -/
def executeToolCall {Args Val : Type} (env : ToolEnv Args Val) (name : String)
    (args : Args) : Except String Val :=
  if name = "readFile" then env.readFile args
  else if name = "listDirectory" then env.listDirectory args
  else if name = "searchFile" then env.searchFile args
  else if name = "grep" then env.grep args
  else if name = "searchCodebase" then env.searchCodebase args
  else if name = "getFileInfo" then env.getFileInfo args
  else Except.error ("Unknown tool: " ++ name)

/-- The tool-call requests extracted from a model reply
(`parts.filter(p => p.functionCall)`), in order. -/
def functionCallsOf {Args Val : Type} (c : Content Args Val) : List (String × Args) :=
  c.parts.filterMap (fun p => match p with
    | .functionCall n a => some (n, a)
    | _ => none)

/-- The concatenated text parts of a reply
(`parts.filter(p => p.text).map(p => p.text).join('')`). -/
def textOf {Args Val : Type} (c : Content Args Val) : String :=
  String.join (c.parts.filterMap (fun p => match p with
    | .text s => some s
    | _ => none))

/-- The single combined tool-response turn: exactly one `functionResponse`
payload per requested call, in request order (`Promise.all` preserves order),
each tagged with its call's name; pushed with role `user`. -/
def toolResponseTurn {Args Val : Type} (env : ToolEnv Args Val)
    (calls : List (String × Args)) : Content Args Val :=
  ⟨"user", calls.map (fun na => Part.functionResponse na.1 (executeToolCall env na.1 na.2))⟩

/-- Result of one `generateResponseWithTools` run: the returned text, the
final history, and the number of model queries issued during the run. -/
structure DispatchOut (Args Val : Type) where
  text : String
  history : List (Content Args Val)
  modelQueries : Nat

/-- `generateResponseWithTools` from `codeAgent.ts`.  The remote model is
external: `reply1` and `reply2` are the contents its two possible round trips
return (`none` models a reply without candidate content).  Tool failures are
caught per call inside the `Promise.all` map; after executing a non-empty
batch of calls the model is re-queried exactly once. -/
def generateResponseWithTools {Args Val : Type} (env : ToolEnv Args Val)
    (reply1 reply2 : Option (Content Args Val)) (history : List (Content Args Val)) :
    DispatchOut Args Val :=
  match reply1 with
  | none => ⟨"I am sorry, but I could not process your request.", history, 1⟩
  | some content1 =>
    let history1 := history ++ [content1]
    let calls := functionCallsOf content1
    if calls.isEmpty then
      let t := textOf content1
      ⟨if t = "" then "I don't have a specific response for that." else t, history1, 1⟩
    else
      let history2 := history1 ++ [toolResponseTurn env calls]
      match reply2 with
      | some content2 =>
        let t := textOf content2
        ⟨if t = "" then "No final text response." else t, history2 ++ [content2], 2⟩
      | none => ⟨"I was unable to generate a final response.", history2, 2⟩

/-- An environment whose six tools all succeed trivially. -/
def trivialEnv : ToolEnv Unit Unit :=
  ⟨fun _ => Except.ok (), fun _ => Except.ok (), fun _ => Except.ok (),
   fun _ => Except.ok (), fun _ => Except.ok (), fun _ => Except.ok ()⟩

theorem splitOnChar_ne_nil (sep : Nat) (s : JSString) : splitOnChar sep s ≠ [] := by
  cases s with
  | nil => simp [splitOnChar]
  | cons c rest =>
    simp only [splitOnChar]
    rcases h : splitOnChar sep rest with _ | ⟨l, ls⟩
    · simp
    · by_cases hc : c = sep <;> simp [hc]

theorem splitLines_ne_nil (s : JSString) : splitLines s ≠ [] :=
  splitOnChar_ne_nil newlineCU s

theorem joinLines_cons_cons (c : Nat) (l : JSString) (ls : List JSString) :
    joinLines ((c :: l) :: ls) = c :: joinLines (l :: ls) := by
  cases ls <;> simp [joinLines]

/-- Splitting on `'\n'` and re-joining with `'\n'` is the identity, so a chunk
that spans the whole line array has the original file content. -/
theorem joinLines_splitLines (s : JSString) : joinLines (splitLines s) = s := by
  induction s with
  | nil => simp [splitLines, splitOnChar, joinLines]
  | cons c rest ih =>
    rcases h : splitLines rest with _ | ⟨l, ls⟩
    · exact absurd h (splitLines_ne_nil rest)
    · rw [h] at ih
      by_cases hc : c = newlineCU
      · have : splitLines (c :: rest) = [] :: l :: ls := by
          simp [splitLines, splitOnChar] at h ⊢
          rw [h]
          simp [hc]
        rw [this]
        subst hc
        simpa [joinLines] using ih
      · have : splitLines (c :: rest) = (c :: l) :: ls := by
          simp [splitLines, splitOnChar] at h ⊢
          rw [h]
          simp [hc]
        rw [this, joinLines_cons_cons, ih]

theorem chunksFrom_eq (filePath : JSString) (lines : List JSString) (i : Nat) :
    chunksFrom filePath lines i =
      if i < lines.length then
        { filePath := filePath, startLine := i + 1,
          endLine := min (i + 1000) lines.length,
          content := joinLines ((lines.drop i).take (min (i + 1000) lines.length - i)) } ::
          chunksFrom filePath lines (i + 950)
      else [] := by
  rw [chunksFrom]

/-- Closed form of the chunking loop: the `k`-th chunk emitted starting from
index `i` begins at line `i + 950k + 1` and exists iff `i + 950k` is still
inside the line array. -/
theorem chunksFrom_getElem? (filePath : JSString) (lines : List JSString) :
    ∀ (k i : Nat), (chunksFrom filePath lines i)[k]? =
      if i + 950 * k < lines.length then
        some { filePath := filePath, startLine := i + 950 * k + 1,
               endLine := min (i + 950 * k + 1000) lines.length,
               content := joinLines ((lines.drop (i + 950 * k)).take
                 (min (i + 950 * k + 1000) lines.length - (i + 950 * k))) }
      else none := by
  intro k
  induction k with
  | zero =>
    intro i
    rw [chunksFrom_eq]
    by_cases h : i < lines.length <;> simp [h]
  | succ k ih =>
    intro i
    rw [chunksFrom_eq]
    by_cases h : i < lines.length
    · simp only [h, if_true, List.getElem?_cons_succ]
      rw [ih (i + 950)]
      have : i + 950 + 950 * k = i + 950 * (k + 1) := by ring
      rw [this]
    · have h2 : ¬ i + 950 * (k + 1) < lines.length := by omega
      simp [h, h2]

theorem chunksFrom_lt_length (filePath : JSString) (lines : List JSString) (k i : Nat) :
    k < (chunksFrom filePath lines i).length ↔ i + 950 * k < lines.length := by
  constructor
  · intro h
    have hsome := chunksFrom_getElem? filePath lines k i
    rw [List.getElem?_eq_getElem h] at hsome
    by_cases hcond : i + 950 * k < lines.length
    · exact hcond
    · simp [hcond] at hsome
  · intro h
    by_contra hk
    push_neg at hk
    have hnone : (chunksFrom filePath lines i)[k]? = none := List.getElem?_eq_none hk
    rw [chunksFrom_getElem?] at hnone
    simp [h] at hnone

theorem splitLines_length_pos (s : JSString) : 0 < (splitLines s).length :=
  List.length_pos.mpr (splitLines_ne_nil s)

theorem splitLines_replicate_newline :
    ∀ n, splitLines (List.replicate n newlineCU) = List.replicate (n + 1) [] := by
  intro n
  induction n with
  | zero => simp [splitLines, splitOnChar]
  | succ n ih =>
    rw [List.replicate_succ]
    show splitOnChar newlineCU (newlineCU :: List.replicate n newlineCU) = _
    simp only [splitOnChar]
    rw [show splitOnChar newlineCU (List.replicate n newlineCU)
          = List.replicate (n + 1) [] from ih]
    simp [List.replicate_succ]

/-- C1 (amended): an input of at most 950 lines yields exactly one chunk
spanning the whole file; the empty text is split by JavaScript into one empty
line, so it yields one chunk covering line 1 with empty content (not zero
chunks). -/
theorem chunker_single_window (fp content : JSString) :
    ((splitLines content).length ≤ 950 →
      splitCodeIntoChunks fp content =
        [{ filePath := fp, startLine := 1, endLine := (splitLines content).length,
           content := content }])
    ∧ splitCodeIntoChunks fp [] =
        [{ filePath := fp, startLine := 1, endLine := 1, content := [] }] := by
  constructor
  · intro h
    have hpos := splitLines_length_pos content
    rw [splitCodeIntoChunks, chunksFrom_eq, chunksFrom_eq]
    rw [if_neg (by omega : ¬ 0 + 950 < (splitLines content).length),
      if_pos (by omega : 0 < (splitLines content).length)]
    have hmin : min (0 + 1000) (splitLines content).length
        = (splitLines content).length := by omega
    simp [hmin, joinLines_splitLines]
  · have hsplit : splitLines ([] : JSString) = [[]] := rfl
    rw [splitCodeIntoChunks, hsplit, chunksFrom_eq, chunksFrom_eq]
    norm_num
    rfl

/-- C1 counterexample: the claim "empty text yields zero chunks" fails (the
code yields one chunk), and the claim "at most 1000 lines yields exactly one
chunk" fails at a 1000-line input (the code yields two chunks, because the
loop steps by 950). -/
theorem chunker_single_window_counterexample :
    splitCodeIntoChunks [] [] ≠ ([] : List CodeChunk)
    ∧ (splitCodeIntoChunks [] (List.replicate 999 newlineCU)).length ≠ 1 := by
  constructor
  · rw [splitCodeIntoChunks, chunksFrom_eq]
    have : splitLines ([] : JSString) = [[]] := rfl
    simp [this]
  · have hL : (splitLines (List.replicate 999 newlineCU)).length = 1000 := by
      rw [splitLines_replicate_newline]; simp
    have h : 1 < (chunksFrom [] (splitLines (List.replicate 999 newlineCU)) 0).length :=
      (chunksFrom_lt_length _ _ 1 0).mpr (by omega)
    rw [splitCodeIntoChunks]
    omega

/-- Witness for C1 at a concrete one-line input. -/
theorem chunker_single_window_inst :
    splitCodeIntoChunks [] [104] =
      [{ filePath := [], startLine := 1, endLine := 1, content := [104] }] :=
  (chunker_single_window [] [104]).1 (by decide)

/-- C7: for any file, the chunk line ranges cover `[1, L]` with no gap; every
consecutive pair of chunks whose second member is not the final chunk overlaps
by exactly 50 lines; and a 2000-line file yields exactly the three chunks
1–1000, 951–1950, 1901–2000. -/
theorem chunk_coverage_overlap (fp content : JSString) :
    (∀ j, 1 ≤ j → j ≤ (splitLines content).length →
      ∃ c ∈ splitCodeIntoChunks fp content, c.startLine ≤ j ∧ j ≤ c.endLine)
    ∧ (∀ k c c', (splitCodeIntoChunks fp content)[k]? = some c →
        (splitCodeIntoChunks fp content)[k + 1]? = some c' →
        k + 2 < (splitCodeIntoChunks fp content).length →
        c.endLine + 1 = c'.startLine + 50)
    ∧ (splitCodeIntoChunks fp (List.replicate 1999 newlineCU)).map
        (fun c => (c.startLine, c.endLine)) = [(1, 1000), (951, 1950), (1901, 2000)] := by
  refine ⟨?_, ?_, ?_⟩
  · intro j hj1 hjL
    have hdm := Nat.div_add_mod (j - 1) 950
    have hmod := @Nat.mod_lt (j - 1) 950 (by norm_num)
    set k := (j - 1) / 950 with hk
    have hcond : 0 + 950 * k < (splitLines content).length := by omega
    have hc := chunksFrom_getElem? fp (splitLines content) k 0
    rw [if_pos hcond] at hc
    rw [splitCodeIntoChunks]
    refine ⟨_, List.getElem?_mem hc, ?_, ?_⟩
    · show 0 + 950 * k + 1 ≤ j
      omega
    · show j ≤ min (0 + 950 * k + 1000) (splitLines content).length
      omega
  · intro k c c' hc hc' hlen
    rw [splitCodeIntoChunks] at hc hc' hlen
    rw [chunksFrom_getElem?] at hc hc'
    rw [chunksFrom_lt_length] at hlen
    rw [if_pos (by omega : 0 + 950 * k < (splitLines content).length)] at hc
    rw [if_pos (by omega : 0 + 950 * (k + 1) < (splitLines content).length)] at hc'
    obtain rfl := Option.some.inj hc
    obtain rfl := Option.some.inj hc'
    show min (0 + 950 * k + 1000) (splitLines content).length + 1
      = 0 + 950 * (k + 1) + 1 + 50
    omega
  · rw [splitCodeIntoChunks, splitLines_replicate_newline]
    apply List.ext_getElem?
    intro k
    rw [List.getElem?_map, chunksFrom_getElem?]
    match k with
    | 0 =>
      rw [if_pos (by rw [List.length_replicate]; norm_num), Option.map_some']
      show some ((0 + 950 * 0 + 1,
        min (0 + 950 * 0 + 1000) (List.replicate 2000 ([] : JSString)).length)) = _
      rw [List.length_replicate]
      norm_num
    | 1 =>
      rw [if_pos (by rw [List.length_replicate]; norm_num), Option.map_some']
      show some ((0 + 950 * 1 + 1,
        min (0 + 950 * 1 + 1000) (List.replicate 2000 ([] : JSString)).length)) = _
      rw [List.length_replicate]
      norm_num
    | 2 =>
      rw [if_pos (by rw [List.length_replicate]; norm_num), Option.map_some']
      show some ((0 + 950 * 2 + 1,
        min (0 + 950 * 2 + 1000) (List.replicate 2000 ([] : JSString)).length)) = _
      rw [List.length_replicate]
      norm_num
    | (n + 3) =>
      rw [if_neg (by rw [List.length_replicate]; omega)]
      symm
      apply List.getElem?_eq_none
      simp only [List.length_cons, List.length_nil]
      omega

/-- Witness for C7: coverage at line 1500 of the 2000-line file, and the
concrete three-chunk instance. -/
theorem chunk_coverage_overlap_inst :
    (∃ c ∈ splitCodeIntoChunks [97] (List.replicate 1999 newlineCU),
      c.startLine ≤ 1500 ∧ 1500 ≤ c.endLine)
    ∧ (splitCodeIntoChunks [97] (List.replicate 1999 newlineCU)).map
        (fun c => (c.startLine, c.endLine)) = [(1, 1000), (951, 1950), (1901, 2000)] :=
  ⟨(chunk_coverage_overlap [97] (List.replicate 1999 newlineCU)).1 1500 (by norm_num)
      (by rw [splitLines_replicate_newline, List.length_replicate]; norm_num),
    (chunk_coverage_overlap [97] (List.replicate 1999 newlineCU)).2.2⟩

theorem splitWs_ne_nil (s : JSString) : splitWs s ≠ [] := by
  cases s with
  | nil => simp [splitWs]
  | cons c rest =>
    simp only [splitWs]
    by_cases hc : jsWhitespace c
    · cases rest with
      | nil => simp [hc]
      | cons d rest' =>
        by_cases hd : jsWhitespace d
        · simp only [hc, if_true, hd]
          exact splitWs_ne_nil (d :: rest')
        · simp [hc, hd]
    · rcases h : splitWs rest with _ | ⟨l, ls⟩ <;> simp [hc, h]

theorem foldl_add_map {α : Type} (f : α → ℝ) :
    ∀ (l : List α) (s : ℝ), l.foldl (fun a v => a + f v) s = s + (l.map f).sum := by
  intro l
  induction l with
  | nil => simp
  | cons x xs ih => intro s; rw [List.foldl_cons, ih, List.map_cons, List.sum_cons]; ring

theorem sumsq_eq_sum_map (l : List ℝ) : sumsq l = (l.map (fun v => v * v)).sum := by
  rw [sumsq, foldl_add_map, zero_add]

theorem sumsq_nonneg (l : List ℝ) : 0 ≤ sumsq l := by
  rw [sumsq_eq_sum_map]
  exact List.sum_nonneg (by intro x hx; obtain ⟨v, _, rfl⟩ := List.mem_map.mp hx
                            exact mul_self_nonneg v)

theorem bump_length (l : List Nat) (i : Nat) : (bump l i).length = l.length := by
  simp [bump]

theorem bump_sum (l : List Nat) (i : Nat) (h : i < l.length) :
    (bump l i).sum = l.sum + 1 := by
  induction l generalizing i with
  | nil => simp at h
  | cons x xs ih =>
    cases i with
    | zero => simp [bump]; omega
    | succ i =>
      have hi : i < xs.length := by simpa using h
      have := ih i hi
      simp only [bump, List.set_cons_succ, List.sum_cons, List.getD_cons_succ] at this ⊢
      omega

theorem hashAccum_length (words : List JSString) : (hashAccum words).length = 1536 := by
  rw [hashAccum]
  have : ∀ (ws : List JSString) (acc : List Nat),
      (ws.foldl (fun a w => bump a (simpleHash w % 1536)) acc).length = acc.length := by
    intro ws
    induction ws with
    | nil => intro acc; rfl
    | cons w ws ih => intro acc; rw [List.foldl_cons, ih, bump_length]
  rw [this, List.length_replicate]

theorem hashAccum_sum (words : List JSString) :
    (hashAccum words).sum = words.length := by
  rw [hashAccum]
  have : ∀ (ws : List JSString) (acc : List Nat), acc.length = 1536 →
      (ws.foldl (fun a w => bump a (simpleHash w % 1536)) acc).sum
        = acc.sum + ws.length := by
    intro ws
    induction ws with
    | nil => intro acc _; simp
    | cons w ws ih =>
      intro acc hlen
      rw [List.foldl_cons, ih _ (by rw [bump_length]; exact hlen),
        bump_sum _ _ (by rw [hlen]; exact Nat.mod_lt _ (by norm_num))]
      simp only [List.length_cons]
      omega
  rw [this _ _ (by rw [List.length_replicate]), List.sum_replicate]
  simp

theorem exists_pos_of_sum_pos {l : List Nat} (h : 0 < l.sum) : ∃ v ∈ l, 0 < v := by
  by_contra hall
  push_neg at hall
  have : l.sum = 0 := by
    apply List.sum_eq_zero
    intro x hx
    exact Nat.le_zero.mp (hall x hx)
  omega

/-- The accumulator always receives at least one bump (even the empty string
splits into one empty token, which hashes to bucket 0), so the squared norm of
the raw accumulator is strictly positive. -/
theorem accum_sumsq_pos (text : JSString) :
    0 < sumsq ((hashAccum (splitWs (toLowerJS text))).map (Nat.cast : ℕ → ℝ)) := by
  have hsum : 0 < (hashAccum (splitWs (toLowerJS text))).sum := by
    rw [hashAccum_sum]
    have := splitWs_ne_nil (toLowerJS text)
    exact List.length_pos.mpr this
  obtain ⟨v, hv, hvpos⟩ := exists_pos_of_sum_pos hsum
  rw [sumsq_eq_sum_map]
  have hmem : ((v : ℝ) * (v : ℝ)) ∈
      (((hashAccum (splitWs (toLowerJS text))).map (Nat.cast : ℕ → ℝ)).map
        (fun v => v * v)) := by
    rw [List.map_map]
    exact List.mem_map.mpr ⟨v, hv, rfl⟩
  have hnn : ∀ x ∈ (((hashAccum (splitWs (toLowerJS text))).map (Nat.cast : ℕ → ℝ)).map
      (fun v => v * v)), (0 : ℝ) ≤ x := by
    intro x hx
    obtain ⟨w, _, rfl⟩ := List.mem_map.mp hx
    exact mul_self_nonneg w
  have hle := List.single_le_sum hnn _ hmem
  have hvv : (0 : ℝ) < (v : ℝ) * (v : ℝ) := by
    have h0 : (0 : ℝ) < (v : ℝ) := by exact_mod_cast hvpos
    positivity
  linarith

theorem createSimpleEmbedding_length (text : JSString) :
    (createSimpleEmbedding text).length = 1536 := by
  rw [createSimpleEmbedding]
  simp [hashAccum_length]

theorem sumsq_map_div (l : List ℝ) (c : ℝ) :
    sumsq (l.map (fun v => v / c)) = sumsq l * (1 / (c * c)) := by
  rw [sumsq_eq_sum_map, sumsq_eq_sum_map, List.map_map]
  have : ((fun v => v * v) ∘ fun v => v / c) = fun v => (v * v) * (1 / (c * c)) := by
    funext v
    field_simp
  rw [this, List.sum_map_mul_right]

/-- The published embedding always has unit squared norm: the accumulator is
never the zero vector, so the `norm > 0` branch is always taken. -/
theorem createSimpleEmbedding_sumsq (text : JSString) :
    sumsq (createSimpleEmbedding text) = 1 := by
  rw [createSimpleEmbedding]
  set acc := (hashAccum (splitWs (toLowerJS text))).map (Nat.cast : ℕ → ℝ) with hacc
  have hpos : 0 < sumsq acc := accum_sumsq_pos text
  have hnorm : 0 < Real.sqrt (sumsq acc) := Real.sqrt_pos.mpr hpos
  simp only [hnorm, if_true]
  rw [sumsq_map_div, Real.mul_self_sqrt (le_of_lt hpos), mul_one_div,
    div_self (ne_of_gt hpos)]

theorem createSimpleEmbedding_nil :
    createSimpleEmbedding [] = (1 : ℝ) :: List.replicate 1535 0 := by
  rw [createSimpleEmbedding]
  have hsplit : splitWs (toLowerJS []) = [[]] := rfl
  have hhash : simpleHash [] % 1536 = 0 := rfl
  have haccum : hashAccum [[]] = 1 :: List.replicate 1535 0 := by
    rw [hashAccum, List.foldl_cons, List.foldl_nil, hhash]
    rw [show (1536 : ℕ) = 1535 + 1 from rfl, List.replicate_succ]
    simp only [bump, List.getD_cons_zero, List.set_cons_zero]
  rw [hsplit, haccum]
  have hmap : ((1 : ℕ) :: List.replicate 1535 0).map (Nat.cast : ℕ → ℝ)
      = (1 : ℝ) :: List.replicate 1535 0 := by
    simp only [List.map_cons, List.map_replicate, Nat.cast_one, Nat.cast_zero]
  rw [hmap]
  have hsq : sumsq ((1 : ℝ) :: List.replicate 1535 0) = 1 := by
    rw [sumsq_eq_sum_map]
    simp only [List.map_cons, List.map_replicate, List.sum_cons, List.sum_replicate,
      mul_zero, one_mul, smul_zero, add_zero]
  rw [hsq, Real.sqrt_one]
  have hfun : (fun val : ℝ => if (1 : ℝ) > 0 then val / 1 else 0) = fun val : ℝ => val := by
    funext val
    rw [if_pos one_pos, div_one]
  rw [hfun, List.map_id']

/-- C2 counterexample: `embed("")` is not the zero vector — the empty string
splits into one empty token, which hashes to bucket 0, so the result is the
unit basis vector with a 1 in slot 0. -/
theorem embed_empty_counterexample :
    createSimpleEmbedding [] ≠ List.replicate 1536 (0 : ℝ) := by
  rw [createSimpleEmbedding_nil, show (1536 : ℕ) = 1535 + 1 from rfl,
    List.replicate_succ]
  intro h
  have := (List.cons.injEq _ _ _ _).mp h
  exact one_ne_zero this.1

/-- C2 (amended): `embed` is deterministic (identical text yields identical
vectors), but `embed("")` is the unit basis vector `e₀`, not the zero
vector. -/
theorem embed_deterministic_empty_unit :
    (∀ t : JSString, createSimpleEmbedding t = createSimpleEmbedding t)
    ∧ createSimpleEmbedding [] = (1 : ℝ) :: List.replicate 1535 0 :=
  ⟨fun _ => rfl, createSimpleEmbedding_nil⟩

theorem dotProduct_eq_sum (a b : List ℝ) :
    dotProduct a b = ((a.zip b).map (fun p => p.1 * p.2)).sum := by
  rw [dotProduct, foldl_add_map (fun p : ℝ × ℝ => p.1 * p.2), zero_add]

theorem zip_self_eq_map (l : List ℝ) : l.zip l = l.map (fun x => (x, x)) := by
  induction l with
  | nil => rfl
  | cons x xs ih => simp [List.zip_cons_cons, ih]

theorem dotProduct_self (a : List ℝ) : dotProduct a a = sumsq a := by
  rw [dotProduct_eq_sum, zip_self_eq_map, List.map_map, sumsq_eq_sum_map]
  rfl

/-- Cauchy–Schwarz for paired lists. -/
theorem list_inner_sq_le (l : List (ℝ × ℝ)) :
    ((l.map (fun p => p.1 * p.2)).sum) ^ 2 ≤
      ((l.map (fun p => p.1 * p.1)).sum) * ((l.map (fun p => p.2 * p.2)).sum) := by
  have h := Finset.sum_mul_sq_le_sq_mul_sq Finset.univ
    (fun i : Fin l.length => (l.get i).1) (fun i : Fin l.length => (l.get i).2)
  have conv1 : ∀ (f : ℝ × ℝ → ℝ), (l.map f).sum = ∑ i : Fin l.length, f (l.get i) := by
    intro f
    conv_lhs => rw [← List.ofFn_get l]
    rw [List.map_ofFn, Fin.sum_ofFn]
    rfl
  rw [conv1, conv1, conv1]
  simpa [pow_two] using h

theorem cosineSimilarity_bounds (a b : List ℝ) (c : ℝ)
    (h : cosineSimilarity a b = some c) : -1 ≤ c ∧ c ≤ 1 := by
  rw [cosineSimilarity] at h
  by_cases hlen : a.length ≠ b.length
  · rw [if_pos hlen] at h
    obtain rfl := Option.some.inj h
    norm_num
  · rw [if_neg hlen] at h
    push_neg at hlen
    rw [jsDiv] at h
    by_cases hden : Real.sqrt (sumsq a) * Real.sqrt (sumsq b) = 0
    · rw [if_pos hden] at h; cases h
    · rw [if_neg hden] at h
      obtain rfl := Option.some.inj h
      have hA : 0 ≤ sumsq a := sumsq_nonneg a
      have hdenpos : 0 < Real.sqrt (sumsq a) * Real.sqrt (sumsq b) :=
        lt_of_le_of_ne (mul_nonneg (Real.sqrt_nonneg _) (Real.sqrt_nonneg _)) (Ne.symm hden)
      have hfst : (a.zip b).map (fun p : ℝ × ℝ => p.1 * p.1) = a.map (fun x => x * x) := by
        rw [show (fun p : ℝ × ℝ => p.1 * p.1) = (fun x : ℝ => x * x) ∘ Prod.fst from rfl,
          ← List.map_map, List.map_fst_zip a b (le_of_eq hlen)]
      have hsnd : (a.zip b).map (fun p : ℝ × ℝ => p.2 * p.2) = b.map (fun x => x * x) := by
        rw [show (fun p : ℝ × ℝ => p.2 * p.2) = (fun x : ℝ => x * x) ∘ Prod.snd from rfl,
          ← List.map_map, List.map_snd_zip a b (le_of_eq hlen.symm)]
      have hcs := list_inner_sq_le (a.zip b)
      rw [hfst, hsnd, ← sumsq_eq_sum_map, ← sumsq_eq_sum_map, ← dotProduct_eq_sum] at hcs
      have habs : |dotProduct a b| ≤ Real.sqrt (sumsq a) * Real.sqrt (sumsq b) := by
        rw [← Real.sqrt_mul hA, ← Real.sqrt_sq_eq_abs]
        exact Real.sqrt_le_sqrt hcs
      have : |dotProduct a b / (Real.sqrt (sumsq a) * Real.sqrt (sumsq b))| ≤ 1 := by
        rw [abs_div, abs_of_pos hdenpos]
        exact (div_le_one hdenpos).mpr habs
      exact abs_le.mp this

theorem cosineSimilarity_zero_norm (a b : List ℝ) (hlen : a.length = b.length)
    (h : sumsq a = 0 ∨ sumsq b = 0) : cosineSimilarity a b = none := by
  rw [cosineSimilarity, if_neg (not_not.mpr hlen), jsDiv, if_pos ?_]
  rcases h with h | h <;> rw [h, Real.sqrt_zero]
  · exact zero_mul _
  · exact mul_zero _

theorem cosineSimilarity_self (a : List ℝ) (h : sumsq a ≠ 0) :
    cosineSimilarity a a = some 1 := by
  rw [cosineSimilarity, if_neg (not_not.mpr rfl), jsDiv,
    Real.mul_self_sqrt (sumsq_nonneg a), if_neg h, dotProduct_self, div_self h]

theorem cosineSimilarity_embed (s t : JSString) :
    ∃ c, cosineSimilarity (createSimpleEmbedding s) (createSimpleEmbedding t) = some c
      ∧ -1 ≤ c ∧ c ≤ 1 := by
  have heq : cosineSimilarity (createSimpleEmbedding s) (createSimpleEmbedding t)
      = some (dotProduct (createSimpleEmbedding s) (createSimpleEmbedding t) / (1 * 1)) := by
    rw [cosineSimilarity,
      if_neg (by rw [createSimpleEmbedding_length, createSimpleEmbedding_length]; exact fun hh => hh rfl),
      createSimpleEmbedding_sumsq, createSimpleEmbedding_sumsq, Real.sqrt_one, jsDiv,
      if_neg (by norm_num)]
  exact ⟨_, heq, cosineSimilarity_bounds _ _ _ heq⟩

/-- C3 counterexample: the claim "cosine similarity returns 0 whenever either
input has norm 0" fails at `a = b = [0]`: the code divides `0 / 0`, which in
JavaScript is `NaN`, not `0` — there is no zero-norm guard in the code. -/
theorem cosine_zero_norm_counterexample :
    sumsq [(0 : ℝ)] = 0 ∧ cosineSimilarity [(0 : ℝ)] [0] ≠ some 0 := by
  have hs : sumsq [(0 : ℝ)] = 0 := by simp [sumsq]
  refine ⟨hs, ?_⟩
  rw [cosineSimilarity, if_neg (not_not.mpr rfl), jsDiv,
    if_pos (by rw [hs, Real.sqrt_zero, zero_mul])]
  simp

/-- C3 (amended): on equal-length inputs with a zero-norm vector the function
returns NaN (no finite value), not 0; any finite value returned lies in
`[-1, 1]`; two embedding vectors always produce a finite value in `[-1, 1]`;
and the similarity of a vector of positive norm with itself is exactly 1. -/
theorem cosine_similarity_amended :
    (∀ a b : List ℝ, a.length = b.length → sumsq a = 0 ∨ sumsq b = 0 →
      cosineSimilarity a b = none)
    ∧ (∀ (a b : List ℝ) (c : ℝ), cosineSimilarity a b = some c → -1 ≤ c ∧ c ≤ 1)
    ∧ (∀ s t : JSString,
        ∃ c, cosineSimilarity (createSimpleEmbedding s) (createSimpleEmbedding t) = some c
          ∧ -1 ≤ c ∧ c ≤ 1)
    ∧ (∀ a : List ℝ, sumsq a ≠ 0 → cosineSimilarity a a = some 1) :=
  ⟨cosineSimilarity_zero_norm, cosineSimilarity_bounds, cosineSimilarity_embed,
    cosineSimilarity_self⟩

/-- Witness for C3 at concrete vectors. -/
theorem cosine_similarity_amended_inst :
    cosineSimilarity [(0 : ℝ)] [0] = none ∧ cosineSimilarity [(2 : ℝ)] [2] = some 1
      ∧ -1 ≤ (1 : ℝ) ∧ (1 : ℝ) ≤ 1 := by
  have h1 := cosine_similarity_amended.1 [(0 : ℝ)] [0] rfl (Or.inl (by simp [sumsq]))
  have h2 := cosine_similarity_amended.2.2.2 [(2 : ℝ)] (by simp [sumsq])
  have h3 := cosine_similarity_amended.2.1 [(2 : ℝ)] [2] 1 h2
  exact ⟨h1, h2, h3⟩

theorem sumsq_replicate_zero (n : Nat) : sumsq (List.replicate n (0 : ℝ)) = 0 := by
  rw [sumsq_eq_sum_map, List.map_replicate]
  simp

theorem searchCodebase_vector_path (fuse : FuseFn) (s : IndexState) (query : JSString)
    (limit : Nat) (hchunks : s.codeChunks ≠ []) (hemb : 0 < s.embeddings.length) :
    searchCodebase fuse s query limit = vectorRank s (createSimpleEmbedding query) limit := by
  rw [searchCodebase, if_neg (fun h0 => hchunks (List.length_eq_zero.mp h0)), if_pos hemb]
  show (if (createSimpleEmbedding query).length = 0 then _ else _) = _
  rw [if_neg (by rw [createSimpleEmbedding_length]; norm_num)]

theorem searchCodebase_fallback_path (fuse : FuseFn) (s : IndexState) (query : JSString)
    (limit : Nat) (hchunks : s.codeChunks ≠ []) (hemb : s.embeddings = []) :
    searchCodebase fuse s query limit = fallbackSearch fuse s query limit := by
  rw [searchCodebase, if_neg (fun h0 => hchunks (List.length_eq_zero.mp h0)),
    if_neg (by rw [hemb]; simp)]

/-- C8: searching an index with zero chunks returns the empty list (the guard
at the top of `searchCodebase`); the model is total, so no error is raised. -/
theorem search_empty_index (fuse : FuseFn) (s : IndexState) (query : JSString)
    (limit : Nat) (h : s.codeChunks = []) : searchCodebase fuse s query limit = [] := by
  rw [searchCodebase, if_pos (by rw [h]; rfl)]

/-- Witness for C8 on a freshly constructed, unbuilt index. -/
theorem search_empty_index_inst :
    searchCodebase (fun _ _ => []) ⟨[], []⟩ [] 10 = [] :=
  search_empty_index (fun _ _ => []) ⟨[], []⟩ [] 10 rfl

/-- C9: every embedding has length 1536 and strictly positive L2 norm, and
consequently the `queryEmbedding.length === 0` fallback branch inside
`searchCodebase`'s vector arm is unreachable: whenever the index has chunks
and a non-empty vector map, the vector path runs. -/
theorem embed_norm_positive_degenerate_branch_dead :
    (∀ t : JSString, (createSimpleEmbedding t).length = 1536
      ∧ 0 < Real.sqrt (sumsq (createSimpleEmbedding t)))
    ∧ ∀ (fuse : FuseFn) (s : IndexState) (query : JSString) (limit : Nat),
        s.codeChunks ≠ [] → 0 < s.embeddings.length →
        searchCodebase fuse s query limit
          = vectorRank s (createSimpleEmbedding query) limit := by
  constructor
  · intro t
    refine ⟨createSimpleEmbedding_length t, ?_⟩
    rw [createSimpleEmbedding_sumsq, Real.sqrt_one]
    norm_num
  · intro fuse s query limit hchunks hemb
    exact searchCodebase_vector_path fuse s query limit hchunks hemb

/-- Witness for C9 at a concrete state with one chunk and one vector. -/
theorem embed_norm_positive_degenerate_branch_dead_inst :
    searchCodebase fuseConst zeroVecState [104, 105] 10
      = vectorRank zeroVecState (createSimpleEmbedding [104, 105]) 10 :=
  embed_norm_positive_degenerate_branch_dead.2 fuseConst zeroVecState [104, 105] 10
    (by simp [zeroVecState]) (by simp [zeroVecState])

/-- C10: `searchCodebase` (vector path and fuzzy fallback path alike) leaves
the index state unchanged — the method contains no assignment to
`codeChunks` or `embeddings`, so in the state-passing rendering the outgoing
state is definitionally the incoming one. -/
theorem search_preserves_state (fuse : FuseFn) (s : IndexState) (query : JSString)
    (limit : Nat) :
    (searchCodebaseS fuse s query limit).2 = s
    ∧ (searchCodebaseS fuse s query limit).1 = searchCodebase fuse s query limit :=
  ⟨rfl, rfl⟩

theorem vectorRank_zeroVecState :
    vectorRank zeroVecState (createSimpleEmbedding [104, 105]) 10
      = [{ file := [97], line := 1, content := [104, 105], score := some none }] := by
  have hsim : cosineSimilarity (createSimpleEmbedding [104, 105])
      (List.replicate 1536 (0 : ℝ)) = none :=
    cosineSimilarity_zero_norm _ _
      (by rw [createSimpleEmbedding_length, List.length_replicate])
      (Or.inr (sumsq_replicate_zero 1536))
  have hfind : List.find? (fun c =>
      c.filePath == ((splitOnChar colonCU [97, 58, 49]).getD 0 [])
        && some ((c.startLine : Int)) == ((splitOnChar colonCU [97, 58, 49])[1]?).bind parseIntJS)
      [chunkA] = some chunkA := by decide
  have hcontent : trimJS ((splitLines chunkA.content).getD 0 []) = [104, 105] := by decide
  simp only [vectorRank, zeroVecState, List.filterMap_cons, List.filterMap_nil]
  rw [hsim, hfind]
  simp only [sortBySimDesc, List.foldl_cons, List.foldl_nil, insertDescBySim]
  rw [List.take_of_length_le (by norm_num)]
  simp only [List.map_cons, List.map_nil, hcontent]
  rfl

theorem fallbackSearch_zeroVecState :
    fallbackSearch fuseConst zeroVecState [104, 105] 10
      = [{ file := [97], line := 1, content := [104, 105],
           score := some (some (1 / 2)) }] := by
  have hcontent : trimJS ((splitLines chunkA.content).getD 0 []) = [104, 105] := by decide
  rw [fallbackSearch]
  simp only [fuseConst, zeroVecState]
  rw [List.take_of_length_le (by norm_num)]
  simp only [List.map_cons, List.map_nil, hcontent]
  rw [if_neg (by norm_num : ¬ ((1 / 2 : ℝ) = 0))]
  norm_num
  exact ⟨rfl, rfl⟩

/-- C4 counterexample: with one chunk, a stored all-zero vector, and a fuzzy
matcher that matches the chunk, `searchCodebase` does not return via the
fuzzy-match fallback path: the vectors map is non-empty, so the vector path
runs and returns the chunk with a `NaN` score, a different result from the
fallback's. -/
theorem fallback_activation_counterexample :
    (∀ kv ∈ zeroVecState.embeddings, kv.2 = List.replicate 1536 (0 : ℝ))
    ∧ fuseConst zeroVecState.codeChunks [104, 105] ≠ []
    ∧ searchCodebase fuseConst zeroVecState [104, 105] 10
        ≠ fallbackSearch fuseConst zeroVecState [104, 105] 10 := by
  refine ⟨?_, ?_, ?_⟩
  · intro kv hkv
    simp only [zeroVecState, List.mem_singleton] at hkv
    rw [hkv]
  · simp [fuseConst]
  · rw [searchCodebase_vector_path fuseConst zeroVecState [104, 105] 10
        (by simp [zeroVecState]) (by simp [zeroVecState]),
      vectorRank_zeroVecState, fallbackSearch_zeroVecState]
    intro h
    have h1 := ((List.cons.injEq _ _ _ _).mp h).1
    have h2 := congrArg SearchResult.score h1
    simp at h2

/-- C4 (amended): the fuzzy fallback runs only when the vectors map is empty;
in that case, provided the fuzzy matcher returns at least one chunk and the
limit is positive, `search` returns a non-empty fallback result.  When the
vectors map is non-empty — even if every stored vector is all-zero — the
vector path runs instead (with `NaN` scores against zero vectors). -/
theorem fallback_activation_amended :
    (∀ (fuse : FuseFn) (s : IndexState) (query : JSString) (limit : Nat),
      s.codeChunks ≠ [] → s.embeddings = [] →
      searchCodebase fuse s query limit = fallbackSearch fuse s query limit)
    ∧ (∀ (fuse : FuseFn) (s : IndexState) (query : JSString) (limit : Nat),
        s.codeChunks ≠ [] → s.embeddings = [] →
        fuse s.codeChunks query ≠ [] → 0 < limit →
        searchCodebase fuse s query limit ≠ [])
    ∧ (∀ (fuse : FuseFn) (s : IndexState) (query : JSString) (limit : Nat),
        s.codeChunks ≠ [] → 0 < s.embeddings.length →
        searchCodebase fuse s query limit
          = vectorRank s (createSimpleEmbedding query) limit) := by
  refine ⟨searchCodebase_fallback_path, ?_, searchCodebase_vector_path⟩
  intro fuse s query limit hchunks hemb hfuse hlimit
  rw [searchCodebase_fallback_path fuse s query limit hchunks hemb, fallbackSearch]
  intro h
  rw [List.map_eq_nil_iff] at h
  rcases List.take_eq_nil_iff.mp h with h0 | h0
  · omega
  · exact hfuse h0

/-- Witness for C4 at a concrete state with a chunk and an empty vector map. -/
theorem fallback_activation_amended_inst :
    searchCodebase fuseConst ⟨[chunkA], []⟩ [104, 105] 10
        = fallbackSearch fuseConst ⟨[chunkA], []⟩ [104, 105] 10
    ∧ searchCodebase fuseConst ⟨[chunkA], []⟩ [104, 105] 10 ≠ [] :=
  ⟨fallback_activation_amended.1 fuseConst ⟨[chunkA], []⟩ [104, 105] 10
      (by simp) rfl,
    fallback_activation_amended.2.1 fuseConst ⟨[chunkA], []⟩ [104, 105] 10
      (by simp) rfl (by simp [fuseConst]) (by norm_num)⟩

/-- C5: grep misses matching lines.  With search term `"TODO"` and one
readable file whose two lines are both `"TODO"`, the `gi`-flagged RegExp's
`lastIndex` is left at 4 after line 1, so `test` on line 2 starts past the
text and fails (resetting `lastIndex`): only line 1 is reported even though
line 2 matches the term from a fresh scan (second conjunct), and an
unreadable file is skipped without aborting the scan (third conjunct). -/
theorem grep_misses_consecutive_matches :
    grep [84, 79, 68, 79] [([102], some [84, 79, 68, 79, 10, 84, 79, 68, 79])]
      = [{ file := [102], line := 1, content := [84, 79, 68, 79], score := none }]
    ∧ findFrom [84, 79, 68, 79] [84, 79, 68, 79] 0 = some 0
    ∧ grep [84, 79, 68, 79] [([98], none), ([102], some [84, 79, 68, 79])]
      = [{ file := [102], line := 1, content := [84, 79, 68, 79], score := none }] :=
  ⟨rfl, rfl, rfl⟩

/-- C6 counterexample: a model reply carrying zero tool calls does not lead to
any further model query (and no combined response turn is appended): its text
is returned after the single query, refuting the claim's "exactly one further
model query" for N = 0. -/
theorem dispatch_zero_calls_counterexample :
    (functionCallsOf (⟨"model", [Part.text "hi"]⟩ : Content Unit Unit)).length = 0
    ∧ (generateResponseWithTools trivialEnv
        (some ⟨"model", [Part.text "hi"]⟩) none []).modelQueries = 1
    ∧ (generateResponseWithTools trivialEnv
        (some ⟨"model", [Part.text "hi"]⟩) none []).history
        = [⟨"model", [Part.text "hi"]⟩] :=
  ⟨rfl, rfl, rfl⟩

/-- C6 (amended): for a reply with N ≥ 1 tool-call requests the loop appends
exactly N response payloads — one per request, in request order, each a
`functionResponse` tagged with its call's name, an unknown name producing an
`Unknown tool` error payload — as a single combined turn, then issues exactly
one further model query (2 in total).  For N = 0 the reply's text is final:
nothing is appended beyond the reply itself and no further query is issued. -/
theorem dispatch_completeness_amended {Args Val : Type} (env : ToolEnv Args Val)
    (content1 : Content Args Val) (reply2 : Option (Content Args Val))
    (history : List (Content Args Val)) :
    (functionCallsOf content1 ≠ [] →
      (generateResponseWithTools env (some content1) reply2 history).modelQueries = 2
      ∧ ∃ rest, (generateResponseWithTools env (some content1) reply2 history).history
          = history ++ content1 :: toolResponseTurn env (functionCallsOf content1) :: rest)
    ∧ (toolResponseTurn env (functionCallsOf content1)).parts.length
        = (functionCallsOf content1).length
    ∧ (∀ (k : Nat) (call : String × Args), (functionCallsOf content1)[k]? = some call →
        (toolResponseTurn env (functionCallsOf content1)).parts[k]?
          = some (Part.functionResponse call.1 (executeToolCall env call.1 call.2)))
    ∧ (∀ (name : String) (args : Args),
        name ∉ (["readFile", "listDirectory", "searchFile", "grep",
          "searchCodebase", "getFileInfo"] : List String) →
        executeToolCall env name args = Except.error ("Unknown tool: " ++ name))
    ∧ (functionCallsOf content1 = [] →
        (generateResponseWithTools env (some content1) reply2 history).modelQueries = 1
        ∧ (generateResponseWithTools env (some content1) reply2 history).history
            = history ++ [content1]) := by
  refine ⟨?_, ?_, ?_, ?_, ?_⟩
  · intro hne
    have hempty : (functionCallsOf content1).isEmpty = false := by
      rcases h : functionCallsOf content1 with _ | _
      · exact absurd h hne
      · rfl
    rw [generateResponseWithTools]
    simp only [hempty, Bool.false_eq_true, if_false]
    cases reply2 with
    | none => exact ⟨rfl, [], by simp⟩
    | some content2 => exact ⟨rfl, [content2], by simp⟩
  · simp [toolResponseTurn]
  · intro k call hk
    simp only [toolResponseTurn, List.getElem?_map, hk, Option.map_some']
  · intro name args hname
    simp only [List.mem_cons, List.not_mem_nil, or_false, not_or] at hname
    obtain ⟨h1, h2, h3, h4, h5, h6⟩ := hname
    rw [executeToolCall, if_neg h1, if_neg h2, if_neg h3, if_neg h4, if_neg h5, if_neg h6]
  · intro hnil
    have hempty : (functionCallsOf content1).isEmpty = true := by rw [hnil]; rfl
    constructor
    · rw [generateResponseWithTools]; simp [hempty]
    · rw [generateResponseWithTools]; simp [hempty]

/-- Witness for C6: one requested call to an unknown tool name yields a
two-query run whose combined response turn holds exactly one payload. -/
theorem dispatch_completeness_amended_inst :
    (generateResponseWithTools trivialEnv
        (some (⟨"model", [Part.functionCall "mystery" ()]⟩ : Content Unit Unit)) none
        []).modelQueries = 2
    ∧ ∃ rest, (generateResponseWithTools trivialEnv
        (some (⟨"model", [Part.functionCall "mystery" ()]⟩ : Content Unit Unit)) none
        []).history
        = [] ++ (⟨"model", [Part.functionCall "mystery" ()]⟩ : Content Unit Unit)
            :: toolResponseTurn trivialEnv
                (functionCallsOf (⟨"model", [Part.functionCall "mystery" ()]⟩ :
                  Content Unit Unit)) :: rest :=
  (dispatch_completeness_amended trivialEnv
    (⟨"model", [Part.functionCall "mystery" ()]⟩ : Content Unit Unit) none []).1
    (by simp [functionCallsOf])

end XPlan
